import Mathlib

/-!
Verification of the globe projection utilities of
src/geo/projection/globe_util.js, shallowly embedded over the real numbers.

The embedding keeps the source's names and structure.  Functions that the
source imports from neighbouring modules of the repository (mercator
coordinate conversions, the generic clamp and smoothstep helpers, the tile
extent constant, the bounding-box and vector primitives) are not part of the
given sources; they are modelled from the specification and marked as such in
their doc comments.
-/

open Real

noncomputable section

/-- Three-component vector, indexed like the source's arrays. -/
abbrev Vec3 := Fin 3 → ℝ

/-- Componentwise minimum, gl-matrix vec3.min. -/
def vmin (u v : Vec3) : Vec3 := fun i => min (u i) (v i)

/-- Componentwise maximum, gl-matrix vec3.max. -/
def vmax (u v : Vec3) : Vec3 := fun i => max (u i) (v i)

/-- Componentwise sum, gl-matrix vec3.add. -/
def vadd (u v : Vec3) : Vec3 := fun i => u i + v i

/-- Componentwise difference, gl-matrix vec3.sub. -/
def vsub (u v : Vec3) : Vec3 := fun i => u i - v i

/-- Scalar multiple, gl-matrix vec3.scale. -/
def vscale (k : ℝ) (v : Vec3) : Vec3 := fun i => k * v i

/-- Componentwise negation, gl-matrix vec3.negate. -/
def vneg (v : Vec3) : Vec3 := fun i => -v i

/-- Dot product, gl-matrix vec3.dot. -/
def vdot (u v : Vec3) : ℝ := u 0 * v 0 + u 1 * v 1 + u 2 * v 2

/-- Euclidean length, gl-matrix vec3.length. -/
def vlength (v : Vec3) : ℝ := Real.sqrt (vdot v v)

/-- gl-matrix vec3.normalize: the zero vector is left unchanged. -/
def vnormalize (v : Vec3) : Vec3 :=
  if vlength v = 0 then v else vscale (1 / vlength v) v

/-- Cross product, gl-matrix vec3.cross. -/
def vcross (a b : Vec3) : Vec3 :=
  ![a 1 * b 2 - a 2 * b 1, a 2 * b 0 - a 0 * b 2, a 0 * b 1 - a 1 * b 0]

/-- The clamp helper of util.js.  Modelled from the spec: latitude and
interpolation parameters are clamped into closed ranges, which the
repository implements as the minimum of the upper bound with the maximum of
the lower bound and the input. -/
def clamp (n lo hi : ℝ) : ℝ := min hi (max lo n)

/-- gl-matrix vec3.angle: arc cosine of the clamped normalized dot product,
with a zero cosine when either factor is the zero vector. -/
def vangle (a b : Vec3) : ℝ :=
  let mag := Real.sqrt (vdot a a * vdot b b)
  let cosine := if mag = 0 then 0 else vdot a b / mag
  Real.arccos (clamp cosine (-1) 1)

/-- Degree to radian conversion of util.js. -/
def degToRad (d : ℝ) : ℝ := d * π / 180

/-- Radian to degree conversion of util.js. -/
def radToDeg (r : ℝ) : ℝ := r * 180 / π

/-- The smoothstep helper of util.js.  Modelled from the spec: a smooth
cubic Hermite style ramp between the two thresholds, clamped to the unit
interval. -/
def smoothstep (e0 e1 x : ℝ) : ℝ :=
  let t := clamp ((x - e0) / (e1 - e0)) 0 1
  t * t * (3 - 2 * t)

/-- Linear interpolation of numbers from the style-spec interpolate module.
Modelled from the spec: values are interpolated linearly by the factor. -/
def interpolateNum (a b t : ℝ) : ℝ := a * (1 - t) + b * t

/-- Linear interpolation of vectors, the array form of the style-spec
interpolate module applied to the three-component arrays of the source. -/
def interpolateVec (a b : Vec3) (t : ℝ) : Vec3 :=
  fun i => interpolateNum (a i) (b i) t

/-- The tile extent constant of data/extent.js.  Modelled from the spec: the
full-sphere bounding box of the zoom-zero tile extends to 512 divided by two
pi on every axis, so the extent is 512. -/
def EXTENT : ℝ := 512

/-- The maximum mercator latitude of mercator_coordinate.js.  Modelled from
the spec: the fixed maximum latitude of roughly 85.05 degrees that maps the
mercator unit square onto the sphere. -/
def MAX_MERCATOR_LATITUDE : ℝ := 85.051129

/-- mercatorXfromLng of mercator_coordinate.js.  Modelled from the spec:
normalized planar projection of longitude onto the unit interval. -/
def mercatorXfromLng (lng : ℝ) : ℝ := (180 + lng) / 360

/-- mercatorYfromLat of mercator_coordinate.js.  Modelled from the spec:
normalized mercator projection of latitude onto the unit interval. -/
def mercatorYfromLat (lat : ℝ) : ℝ :=
  (180 - 180 / π * Real.log (Real.tan (π / 4 + lat * π / 360))) / 360

/-- lngFromMercatorX of mercator_coordinate.js.  Modelled from the spec: the
inverse of the planar projection of longitude. -/
def lngFromMercatorX (x : ℝ) : ℝ := x * 360 - 180

/-- latFromMercatorY of mercator_coordinate.js.  Modelled from the spec: the
inverse of the mercator projection of latitude. -/
def latFromMercatorY (y : ℝ) : ℝ :=
  360 / π * Real.arctan (Real.exp ((180 - y * 360) * π / 180)) - 90

/-- The earth radius in meters used by mercator_coordinate.js.  Modelled
from the spec: the reference radius of the planet. -/
def earthRadius : ℝ := 6371008.8

/-- circumferenceAtLatitude of mercator_coordinate.js.  Modelled from the
spec: length of the parallel at the given latitude. -/
def circumferenceAtLatitude (lat : ℝ) : ℝ :=
  2 * π * earthRadius * Real.cos (degToRad lat)

/-- mercatorZfromAltitude of mercator_coordinate.js.  Modelled from the
spec: altitude expressed in mercator units. -/
def mercatorZfromAltitude (altitude lat : ℝ) : ℝ :=
  altitude / circumferenceAtLatitude lat

def GLOBE_ZOOM_THRESHOLD_MIN : ℝ := 5

def GLOBE_ZOOM_THRESHOLD_MAX : ℝ := 6

/-- GLOBE_RADIUS of globe_util.js: EXTENT divided by pi divided by two. -/
def GLOBE_RADIUS : ℝ := EXTENT / π / 2

/-- GLOBE_METERS_TO_ECEF of globe_util.js. -/
def GLOBE_METERS_TO_ECEF : ℝ :=
  mercatorZfromAltitude 1 0 * 2 * GLOBE_RADIUS * π

def GLOBE_NORMALIZATION_BIT_RANGE : ℕ := 15

/-- GLOBE_NORMALIZATION_MASK of globe_util.js: one shifted left by fourteen,
minus one. -/
def GLOBE_NORMALIZATION_MASK : ℝ :=
  (2 : ℝ) ^ (GLOBE_NORMALIZATION_BIT_RANGE - 1) - 1

def GLOBE_MIN : ℝ := -GLOBE_RADIUS

def GLOBE_MAX : ℝ := GLOBE_RADIUS

/-- The largest double-precision value, the Number.MAX_VALUE initializer of
the corner folds of globe_util.js, as an exact real number. -/
def maxNumber : ℝ := (2 ^ 53 - 1) * 2 ^ 971

/-- Geographic position, src/geo/lng_lat.js. -/
structure LngLat where
  lng : ℝ
  lat : ℝ

/-- Geographic rectangle, src/geo/lng_lat_bounds.js.  Modelled from the
spec: a tile's quadtree rectangle held as its southwest and northeast
corners. -/
structure LngLatBounds where
  sw : LngLat
  ne : LngLat

def LngLatBounds.getWest (b : LngLatBounds) : ℝ := b.sw.lng

def LngLatBounds.getEast (b : LngLatBounds) : ℝ := b.ne.lng

def LngLatBounds.getSouth (b : LngLatBounds) : ℝ := b.sw.lat

def LngLatBounds.getNorth (b : LngLatBounds) : ℝ := b.ne.lat

/-- Modelled from the spec: center of the rectangle, the mean of the two
corners. -/
def LngLatBounds.getCenter (b : LngLatBounds) : LngLat :=
  ⟨(b.sw.lng + b.ne.lng) / 2, (b.sw.lat + b.ne.lat) / 2⟩

/-- Modelled from the spec: rectangle membership of a geographic point.
Tile rectangles always have their west edge at or below their east edge, so
the antimeridian-wrapped case of the repository does not arise here. -/
def LngLatBounds.contains (b : LngLatBounds) (p : LngLat) : Prop :=
  b.sw.lat ≤ p.lat ∧ p.lat ≤ b.ne.lat ∧ b.sw.lng ≤ p.lng ∧ p.lng ≤ b.ne.lng

/-- Canonical tile identifier, z / x / y quadtree indices. -/
structure TileID where
  z : ℕ
  x : ℕ
  y : ℕ

/-- Axis-aligned bounding box, src/util/primitives.js. -/
structure Aabb where
  min : Vec3
  max : Vec3

/-- Modelled from the spec: the eight corners of an axis-aligned box, in the
order used by src/util/primitives.js. -/
def Aabb.getCorners (b : Aabb) : List Vec3 :=
  [![b.min 0, b.min 1, b.min 2], ![b.max 0, b.min 1, b.min 2],
   ![b.max 0, b.max 1, b.min 2], ![b.min 0, b.max 1, b.min 2],
   ![b.min 0, b.min 1, b.max 2], ![b.max 0, b.min 1, b.max 2],
   ![b.max 0, b.max 1, b.max 2], ![b.min 0, b.max 1, b.max 2]]

/-- GLOBE_LOW_ZOOM_TILE_AABBS of globe_util.js: the precomputed boxes for
zoom levels zero and one. -/
def GLOBE_LOW_ZOOM_TILE_AABBS : List Aabb :=
  [⟨![GLOBE_MIN, GLOBE_MIN, GLOBE_MIN], ![GLOBE_MAX, GLOBE_MAX, GLOBE_MAX]⟩,
   ⟨![GLOBE_MIN, GLOBE_MIN, GLOBE_MIN], ![0, 0, GLOBE_MAX]⟩,
   ⟨![0, GLOBE_MIN, GLOBE_MIN], ![GLOBE_MAX, 0, GLOBE_MAX]⟩,
   ⟨![GLOBE_MIN, 0, GLOBE_MIN], ![0, GLOBE_MAX, GLOBE_MAX]⟩,
   ⟨![0, 0, GLOBE_MIN], ![GLOBE_MAX, GLOBE_MAX, GLOBE_MAX]⟩]

/-- csLatLngToECEF of globe_util.js: spherical position from the cosine and
sine of the latitude and the longitude in degrees. -/
def csLatLngToECEF (cosLat sinLat lng radius : ℝ) : Vec3 :=
  let lngRad := degToRad lng
  ![cosLat * Real.sin lngRad * radius, -sinLat * radius,
    cosLat * Real.cos lngRad * radius]

/-- latLngToECEF of globe_util.js.  The source asserts that the latitude
lies between -90 and 90; the assertion failure is embedded as none. -/
def latLngToECEF (lat lng radius : ℝ) : Option Vec3 :=
  if lat ≤ 90 ∧ -90 ≤ lat then
    some (csLatLngToECEF (Real.cos (degToRad lat)) (Real.sin (degToRad lat)) lng radius)
  else
    none

/-- tileCornersToBounds of globe_util.js. -/
def tileCornersToBounds (id : TileID) : LngLatBounds :=
  let s : ℝ := 1 / (2 ^ id.z : ℝ)
  let sw : LngLat := ⟨lngFromMercatorX (id.x * s), latFromMercatorY ((id.y + 1) * s)⟩
  let ne : LngLat := ⟨lngFromMercatorX ((id.x + 1) * s), latFromMercatorY (id.y * s)⟩
  ⟨sw, ne⟩

/-- boundsToECEF of globe_util.js: the four corners of a tile rectangle on
the sphere, southwest, southeast, northeast, northwest. -/
def boundsToECEF (bounds : LngLatBounds) : List Vec3 :=
  let ny := degToRad bounds.getNorth
  let sy := degToRad bounds.getSouth
  let cosN := Real.cos ny
  let cosS := Real.cos sy
  let sinN := Real.sin ny
  let sinS := Real.sin sy
  let w := bounds.getWest
  let e := bounds.getEast
  [csLatLngToECEF cosS sinS w GLOBE_RADIUS,
   csLatLngToECEF cosS sinS e GLOBE_RADIUS,
   csLatLngToECEF cosN sinN e GLOBE_RADIUS,
   csLatLngToECEF cosN sinN w GLOBE_RADIUS]

/-- globeTileBounds of globe_util.js: precomputed box lookup for zoom at
most one, componentwise corner bounds beyond that. -/
def globeTileBounds (id : TileID) : Aabb :=
  if id.z ≤ 1 then
    (GLOBE_LOW_ZOOM_TILE_AABBS.getD (id.z + id.y * 2 + id.x)
      ⟨![0, 0, 0], ![0, 0, 0]⟩)
  else
    let bounds := tileCornersToBounds id
    let corners := boundsToECEF bounds
    let bMin := corners.foldl vmin ![GLOBE_MAX, GLOBE_MAX, GLOBE_MAX]
    let bMax := corners.foldl vmax ![GLOBE_MIN, GLOBE_MIN, GLOBE_MIN]
    ⟨bMin, bMax⟩

/-- Four-by-four matrix in the flat column-major layout of gl-matrix:
entry mE with E equal to four times the column plus the row. -/
structure Mat4 where
  m0 : ℝ
  m1 : ℝ
  m2 : ℝ
  m3 : ℝ
  m4 : ℝ
  m5 : ℝ
  m6 : ℝ
  m7 : ℝ
  m8 : ℝ
  m9 : ℝ
  m10 : ℝ
  m11 : ℝ
  m12 : ℝ
  m13 : ℝ
  m14 : ℝ
  m15 : ℝ

/-- gl-matrix mat4.fromScaling. -/
def mat4fromScaling (v : Vec3) : Mat4 :=
  ⟨v 0, 0, 0, 0, 0, v 1, 0, 0, 0, 0, v 2, 0, 0, 0, 0, 1⟩

/-- gl-matrix mat4.fromTranslation. -/
def mat4fromTranslation (v : Vec3) : Mat4 :=
  ⟨1, 0, 0, 0, 0, 1, 0, 0, 0, 0, 1, 0, v 0, v 1, v 2, 1⟩

/-- gl-matrix mat4.translate: post-multiplication by a translation, which
only rewrites the last column. -/
def mat4translate (m : Mat4) (v : Vec3) : Mat4 :=
  { m with
    m12 := m.m0 * v 0 + m.m4 * v 1 + m.m8 * v 2 + m.m12
    m13 := m.m1 * v 0 + m.m5 * v 1 + m.m9 * v 2 + m.m13
    m14 := m.m2 * v 0 + m.m6 * v 1 + m.m10 * v 2 + m.m14
    m15 := m.m3 * v 0 + m.m7 * v 1 + m.m11 * v 2 + m.m15 }

/-- gl-matrix mat4.scale: post-multiplication by a scaling, which rescales
the first three columns. -/
def mat4scale (m : Mat4) (v : Vec3) : Mat4 :=
  ⟨m.m0 * v 0, m.m1 * v 0, m.m2 * v 0, m.m3 * v 0,
   m.m4 * v 1, m.m5 * v 1, m.m6 * v 1, m.m7 * v 1,
   m.m8 * v 2, m.m9 * v 2, m.m10 * v 2, m.m11 * v 2,
   m.m12, m.m13, m.m14, m.m15⟩

/-- gl-matrix mat4.fromRotation: rotation about the normalized axis.  The
degenerate short-axis early exit of gl-matrix is not modelled; the zero
axis simply stays the zero axis under normalization. -/
def mat4fromRotation (rad : ℝ) (axis : Vec3) : Mat4 :=
  let n := vnormalize axis
  let x := n 0
  let y := n 1
  let z := n 2
  let s := Real.sin rad
  let c := Real.cos rad
  let t := 1 - c
  ⟨x * x * t + c, y * x * t + z * s, z * x * t - y * s, 0,
   x * y * t - z * s, y * y * t + c, z * y * t + x * s, 0,
   x * z * t + y * s, y * z * t - x * s, z * z * t + c, 0,
   0, 0, 0, 1⟩

/-- gl-matrix vec3.transformMat4: apply the matrix to the point with an
implicit unit fourth component; a vanishing transformed fourth component is
replaced by one before the perspective divide. -/
def transformMat4 (p : Vec3) (m : Mat4) : Vec3 :=
  let w0 := m.m3 * p 0 + m.m7 * p 1 + m.m11 * p 2 + m.m15
  let w := if w0 = 0 then 1 else w0
  ![(m.m0 * p 0 + m.m4 * p 1 + m.m8 * p 2 + m.m12) / w,
    (m.m1 * p 0 + m.m5 * p 1 + m.m9 * p 2 + m.m13) / w,
    (m.m2 * p 0 + m.m6 * p 1 + m.m10 * p 2 + m.m14) / w]

/-- The camera view state consumed by globe_util.js, holding exactly the
fields the embedded operations read. -/
structure Transform where
  worldSize : ℝ
  zoom : ℝ
  center : LngLat
  pointX : ℝ
  pointY : ℝ
  globeMatrix : Mat4
  pixelsPerMercatorPixel : ℝ
  angle : ℝ
  pitch : ℝ
  cameraToCenterDistance : ℝ
  pixelsPerMeter : ℝ

/-- The Arc record of globe_util.js. -/
structure Arc where
  a : Vec3
  b : Vec3
  center : Vec3
  angle : ℝ

/-- The Arc constructor of globe_util.js: endpoint offsets from the center
and the angle between their normalized directions. -/
def Arc.make (p0 p1 center : Vec3) : Arc :=
  let a := vsub p0 center
  let b := vsub p1 center
  let an := vnormalize a
  let bn := vnormalize b
  ⟨a, b, center, Real.arccos (vdot an bn)⟩

/-- slerp of globe_util.js on one coordinate. -/
def slerp (a b angle t : ℝ) : ℝ :=
  let sina := Real.sin angle
  a * (Real.sin ((1 - t) * angle) / sina) + b * (Real.sin (t * angle) / sina)

/-- The stationary parameter computed inside localExtremum of
globe_util.js, before its range check. -/
def tParam (arc : Arc) (dim : Fin 3) : ℝ :=
  if arc.a dim = 0 then
    1 / arc.angle * 0.5 * π
  else
    1 / arc.angle *
      Real.arctan (arc.b dim / arc.a dim / Real.sin arc.angle - 1 / Real.tan arc.angle)

/-- localExtremum of globe_util.js: none for a degenerate arc or when the
stationary parameter falls outside the unit interval, otherwise the arc
value at the stationary parameter. -/
def localExtremum (arc : Arc) (dim : Fin 3) : Option ℝ :=
  if arc.angle = 0 then
    none
  else
    let t := tParam arc dim
    if t < 0 ∨ t > 1 then
      none
    else
      some (slerp (arc.a dim) (arc.b dim) arc.angle (clamp t 0 1) + arc.center dim)

/-- The JavaScript logical-or fallback applied to the result of
localExtremum in aabbForTileOnGlobe: a null result and the number zero are
both falsy and select the fallback value. -/
def jsOrFallback (o : Option ℝ) (fb : ℝ) : ℝ :=
  match o with
  | none => fb
  | some v => if v = 0 then fb else v

/-- globeToMercatorTransition of globe_util.js. -/
def globeToMercatorTransition (zoom : ℝ) : ℝ :=
  smoothstep GLOBE_ZOOM_THRESHOLD_MIN GLOBE_ZOOM_THRESHOLD_MAX zoom

/-- mercatorTileCornersInCameraSpace of globe_util.js. -/
def mercatorTileCornersInCameraSpace (id : TileID) (numTiles mercatorScale camX0 camY0 : ℝ) :
    List Vec3 :=
  let tileScale : ℝ := 1 / (2 ^ id.z : ℝ)
  let w0 : ℝ := id.x * tileScale
  let e0 : ℝ := w0 + tileScale
  let n0 : ℝ := id.y * tileScale
  let s0 : ℝ := n0 + tileScale
  let tileCenterXFromCamera := (w0 + e0) / 2 - camX0
  let wrap : ℝ :=
    if tileCenterXFromCamera > 0.5 then -1
    else if tileCenterXFromCamera < -0.5 then 1 else 0
  let camX := camX0 * mercatorScale
  let camY := camY0 * mercatorScale
  let w := ((w0 + wrap) * numTiles - camX) * mercatorScale + camX
  let e := ((e0 + wrap) * numTiles - camX) * mercatorScale + camX
  let n := (n0 * numTiles - camY) * mercatorScale + camY
  let s := (s0 * numTiles - camY) * mercatorScale + camY
  [![w, s, 0], ![e, s, 0], ![w, n, 0], ![e, n, 0]]

/-- The mercator x of the camera center used by aabbForTileOnGlobe. -/
def camXOf (tr : Transform) : ℝ := mercatorXfromLng tr.center.lng

/-- The mercator y of the clamped camera center latitude used by
aabbForTileOnGlobe. -/
def camYOf (tr : Transform) : ℝ :=
  mercatorYfromLat (clamp tr.center.lat (-MAX_MERCATOR_LATITUDE) MAX_MERCATOR_LATITUDE)

/-- The world-space tile corners of aabbForTileOnGlobe: the ECEF corners of
the tile rectangle transformed by the globe matrix and uniformly scaled, as
performed in place by updateCorners of globe_util.js. -/
def worldCorners (tr : Transform) (numTiles : ℝ) (tileId : TileID) : List Vec3 :=
  let scale := numTiles / tr.worldSize
  (boundsToECEF (tileCornersToBounds tileId)).map
    (fun c => vscale scale (transformMat4 c tr.globeMatrix))

/-- The mercator corners computed inside the transition branch of
aabbForTileOnGlobe: mercatorTileCornersInCameraSpace at the camera mercator
position. -/
def mercatorCornersOf (tr : Transform) (numTiles : ℝ) (tileId : TileID) : List Vec3 :=
  mercatorTileCornersInCameraSpace tileId numTiles tr.pixelsPerMercatorPixel
    (camXOf tr) (camYOf tr)

/-- The corner positions interpolated toward their mercator camera-space
positions by the transition factor, as computed by the transition branch of
aabbForTileOnGlobe of globe_util.js. -/
def interpolatedCorners (tr : Transform) (numTiles : ℝ) (tileId : TileID) : List Vec3 :=
  let phase := globeToMercatorTransition tr.zoom
  (worldCorners tr numTiles tileId).zipWith
    (fun c mc => interpolateVec c mc phase) (mercatorCornersOf tr numTiles tileId)

/-- Membership of a point in an axis-aligned box. -/
def Aabb.containsPoint (bx : Aabb) (p : Vec3) : Prop :=
  ∀ i : Fin 3, bx.min i ≤ p i ∧ p i ≤ bx.max i

/-- The raw mercator-space x offset of aabbForTileOnGlobe, camera minus
tile center, before the antimeridian adjustment. -/
def dxRawOf (tr : Transform) (tileId : TileID) : ℝ :=
  camXOf tr - mercatorXfromLng (tileCornersToBounds tileId).getCenter.lng

/-- The mercator-space x offset of aabbForTileOnGlobe after the shortest
path antimeridian adjustment. -/
def dxOf (tr : Transform) (tileId : TileID) : ℝ :=
  let dx0 := dxRawOf tr tileId
  if dx0 > 0.5 then dx0 - 1 else if dx0 < -0.5 then dx0 + 1 else dx0

/-- The mercator-space y offset of aabbForTileOnGlobe, camera minus the
clamped tile center latitude. -/
def dyOf (tr : Transform) (tileId : TileID) : ℝ :=
  camYOf tr -
    mercatorYfromLat (clamp (tileCornersToBounds tileId).getCenter.lat
      (-MAX_MERCATOR_LATITUDE) MAX_MERCATOR_LATITUDE)

/-- The index of the tile edge closest to the camera center, as selected by
aabbForTileOnGlobe from the sign and magnitude of the mercator offsets. -/
def closestArcIdxOf (tr : Transform) (tileId : TileID) : ℕ :=
  if |dxOf tr tileId| > |dyOf tr tileId| then (if 0 ≤ dxOf tr tileId then 1 else 3)
  else (if 0 ≤ dyOf tr tileId then 0 else 2)

/-- The arc center used by aabbForTileOnGlobe: the transformed globe origin,
shifted along the globe y axis by the edge latitude for horizontal edges. -/
def arcCenterOf (tr : Transform) (numTiles : ℝ) (tileId : TileID) : Vec3 :=
  let scale := numTiles / tr.worldSize
  let m := tr.globeMatrix
  let arcCenter0 : Vec3 := ![m.m12 * scale, m.m13 * scale, m.m14 * scale]
  if |dxOf tr tileId| > |dyOf tr tileId| then arcCenter0
  else
    let bounds := tileCornersToBounds tileId
    let yAxis : Vec3 := ![m.m4 * scale, m.m5 * scale, m.m6 * scale]
    let shift :=
      -Real.sin (degToRad (if 0 ≤ dyOf tr tileId then bounds.getSouth else bounds.getNorth)) *
        GLOBE_RADIUS
    vadd arcCenter0 (vscale shift yAxis)

/-- The closest edge arc built by aabbForTileOnGlobe from the two selected
world-space corners and the arc center. -/
def closestArcOf (tr : Transform) (numTiles : ℝ) (tileId : TileID) : Arc :=
  Arc.make
    ((worldCorners tr numTiles tileId).getD (closestArcIdxOf tr tileId) ![0, 0, 0])
    ((worldCorners tr numTiles tileId).getD ((closestArcIdxOf tr tileId + 1) % 4) ![0, 0, 0])
    (arcCenterOf tr numTiles tileId)

/-- The per-axis curved-edge extremum with the logical-or fallback to the
first edge corner, as computed by aabbForTileOnGlobe. -/
def arcBoundsRawOf (tr : Transform) (numTiles : ℝ) (tileId : TileID) : Vec3 :=
  let arcA := (worldCorners tr numTiles tileId).getD (closestArcIdxOf tr tileId) ![0, 0, 0]
  ![jsOrFallback (localExtremum (closestArcOf tr numTiles tileId) 0) (arcA 0),
    jsOrFallback (localExtremum (closestArcOf tr numTiles tileId) 1) (arcA 1),
    jsOrFallback (localExtremum (closestArcOf tr numTiles tileId) 2) (arcA 2)]

/-- The mercator midpoint of the closest edge used as the flat-projection
stand-in for the curved extremum during the transition. -/
def mercatorExtremumOf (tr : Transform) (numTiles : ℝ) (tileId : TileID) : Vec3 :=
  interpolateVec
    ((mercatorCornersOf tr numTiles tileId).getD (closestArcIdxOf tr tileId) ![0, 0, 0])
    ((mercatorCornersOf tr numTiles tileId).getD ((closestArcIdxOf tr tileId + 1) % 4) ![0, 0, 0])
    0.5

/-- The arc extremum vector of aabbForTileOnGlobe, interpolated toward the
mercator edge midpoint while the transition is strictly inside its band. -/
def arcBoundsOf (tr : Transform) (numTiles : ℝ) (tileId : TileID) : Vec3 :=
  let phase := globeToMercatorTransition tr.zoom
  if 0 < phase ∧ phase < 1 then
    interpolateVec (arcBoundsRawOf tr numTiles tileId) (mercatorExtremumOf tr numTiles tileId)
      phase
  else arcBoundsRawOf tr numTiles tileId

open scoped Classical in
/-- aabbForTileOnGlobe of globe_util.js.  The source's in-place mutations
are unfolded into a functional form: the corner fold happens on the
world-space corners, the camera-center branch returns early, the closest
arc is selected from the mercator-space offsets, and the arc extremum is
interpolated toward the mercator edge midpoint during the transition.  The
source's reassignment of the corner array inside the transition branch is a
dead store, its value is interpolatedCorners above and it is not read
afterwards. -/
def aabbForTileOnGlobe (tr : Transform) (numTiles : ℝ) (tileId : TileID) : Aabb :=
  let scale := numTiles / tr.worldSize
  let m := tr.globeMatrix
  if tileId.z ≤ 1 then
    let aabb := globeTileBounds tileId
    let corners := aabb.getCorners.map (fun c => vscale scale (transformMat4 c m))
    ⟨corners.foldl vmin ![maxNumber, maxNumber, maxNumber],
     corners.foldl vmax ![-maxNumber, -maxNumber, -maxNumber]⟩
  else
    let bounds := tileCornersToBounds tileId
    let corners := worldCorners tr numTiles tileId
    let cornerMin := corners.foldl vmin ![maxNumber, maxNumber, maxNumber]
    let cornerMax := corners.foldl vmax ![-maxNumber, -maxNumber, -maxNumber]
    if bounds.contains tr.center then
      let center : Vec3 := ![tr.pointX * scale, tr.pointY * scale, 0]
      ⟨vmin cornerMin center,
       vmax (Function.update cornerMax 2 (0 : ℝ)) center⟩
    else
      let arcA := corners.getD (closestArcIdxOf tr tileId) ![0, 0, 0]
      let arcB := corners.getD ((closestArcIdxOf tr tileId + 1) % 4) ![0, 0, 0]
      let arcBounds := arcBoundsOf tr numTiles tileId
      let cornerMin2 := Function.update cornerMin 2 (min (arcA 2) (arcB 2))
      ⟨vmin cornerMin2 arcBounds, vmax cornerMax arcBounds⟩

/-- globeECEFNormalizationScale of globe_util.js. -/
def globeECEFNormalizationScale (bx : Aabb) : ℝ :=
  GLOBE_NORMALIZATION_MASK /
    max (max (bx.max 0 - bx.min 0) (bx.max 1 - bx.min 1)) (bx.max 2 - bx.min 2)

/-- globeNormalizeECEF of globe_util.js: uniform scaling followed by the
translation taking the box minimum to the origin. -/
def globeNormalizeECEF (bounds : Aabb) : Mat4 :=
  let scale := globeECEFNormalizationScale bounds
  mat4translate (mat4fromScaling ![scale, scale, scale]) (vneg bounds.min)

/-- globeDenormalizeECEF of globe_util.js: translation by the box minimum
followed by the inverse uniform scaling. -/
def globeDenormalizeECEF (bounds : Aabb) : Mat4 :=
  let scale := 1 / globeECEFNormalizationScale bounds
  mat4scale (mat4fromTranslation bounds.min) ![scale, scale, scale]

/-- cameraPositionInECEF of globe_util.js: the camera position produced by
rotating the pivot-to-camera direction by bearing and pitch; none when the
center latitude violates the latLngToECEF assertion. -/
def cameraPositionInECEF (tr : Transform) : Option Vec3 :=
  (latLngToECEF tr.center.lat tr.center.lng GLOBE_RADIUS).map fun centerToPivot =>
    let south : Vec3 := ![0, 1, 0]
    let axis0 := vcross south centerToPivot
    let rotation0 := mat4fromRotation (-tr.angle) centerToPivot
    let axis := transformMat4 axis0 rotation0
    let rotation := mat4fromRotation (-tr.pitch) axis
    let pivotToCamera0 :=
      vscale (tr.cameraToCenterDistance / tr.pixelsPerMeter * GLOBE_METERS_TO_ECEF)
        (vnormalize centerToPivot)
    let pivotToCamera := transformMat4 pivotToCamera0 rotation
    vadd centerToPivot pivotToCamera

/-- globeTiltAtLngLat of globe_util.js: the angle between the outward
normal at the point and the vector from the point to the camera. -/
def globeTiltAtLngLat (tr : Transform) (lngLat : LngLat) : Option ℝ :=
  (latLngToECEF lngLat.lat lngLat.lng GLOBE_RADIUS).bind fun centerToPoint =>
    (cameraPositionInECEF tr).map fun centerToCamera =>
      vangle (vsub centerToCamera centerToPoint) centerToPoint

/-- isLngLatBehindGlobe of globe_util.js: the tilt angle, where defined,
exceeds ninety degrees plus one percent. -/
def isLngLatBehindGlobe (tr : Transform) (lngLat : LngLat) : Prop :=
  ∃ t, globeTiltAtLngLat tr lngLat = some t ∧ t > π / 2 * 1.01

/-! # Helper lemmas -/

theorem vsub_zero3 (v : Vec3) : vsub v ![0, 0, 0] = v := by
  funext i
  fin_cases i <;> simp [vsub]

theorem vdot_scale_scale (k l : ℝ) (u v : Vec3) :
    vdot (vscale k u) (vscale l v) = k * l * vdot u v := by
  simp only [vdot, vscale]
  ring

theorem vnormalize_of_norm_pos {v : Vec3} (h : 0 < vdot v v) :
    vnormalize v = vscale (1 / Real.sqrt (vdot v v)) v := by
  rw [vnormalize, if_neg]
  rw [vlength]
  exact Real.sqrt_ne_zero'.mpr h

theorem arc_make_a (p0 p1 c : Vec3) : (Arc.make p0 p1 c).a = vsub p0 c := rfl

theorem arc_make_b (p0 p1 c : Vec3) : (Arc.make p0 p1 c).b = vsub p1 c := rfl

theorem arc_make_center (p0 p1 c : Vec3) : (Arc.make p0 p1 c).center = c := rfl

theorem arc_make_angle (p0 p1 c : Vec3) :
    (Arc.make p0 p1 c).angle =
      Real.arccos (vdot (vnormalize (vsub p0 c)) (vnormalize (vsub p1 c))) := rfl

theorem arc_make_perp_angle {p0 p1 : Vec3} (h0 : 0 < vdot p0 p0)
    (h1 : 0 < vdot p1 p1) (hp : vdot p0 p1 = 0) :
    (Arc.make p0 p1 ![0, 0, 0]).angle = π / 2 := by
  rw [arc_make_angle, vsub_zero3, vsub_zero3, vnormalize_of_norm_pos h0,
    vnormalize_of_norm_pos h1, vdot_scale_scale, hp, mul_zero, Real.arccos_zero]

/-! # C6: the zoom-zero tile bounding box is the full sphere box -/

/-- C6: for the tile with z=0, x=0, y=0, globeTileBounds returns the full
sphere axis-aligned box from -R to R on every axis, with R the globe radius
512 divided by two pi. -/
theorem globeTileBounds_root_full_sphere :
    globeTileBounds ⟨0, 0, 0⟩ =
      ⟨![-(512 / (2 * π)), -(512 / (2 * π)), -(512 / (2 * π))],
        ![512 / (2 * π), 512 / (2 * π), 512 / (2 * π)]⟩ := by
  have hR : GLOBE_RADIUS = 512 / (2 * π) := by
    rw [GLOBE_RADIUS, EXTENT, div_div, mul_comm]
  rw [globeTileBounds, if_pos (by norm_num)]
  simp [GLOBE_LOW_ZOOM_TILE_AABBS, GLOBE_MIN, GLOBE_MAX, hR]

/-! # C9: latLngToECEF asserts the latitude range -/

/-- C9: latLngToECEF hits its assertion exactly for latitudes strictly
outside the closed range from -90 to 90, and within the range returns the
spherical position, the cosine of latitude times sine of longitude, the
negated sine of latitude, and the cosine of latitude times cosine of
longitude, all scaled by the radius, with no wrapping of the longitude. -/
theorem latLngToECEF_spec (lat lng radius : ℝ) :
    (latLngToECEF lat lng radius = none ↔ lat < -90 ∨ 90 < lat) ∧
    (-90 ≤ lat → lat ≤ 90 →
      latLngToECEF lat lng radius =
        some ![Real.cos (degToRad lat) * Real.sin (degToRad lng) * radius,
               -Real.sin (degToRad lat) * radius,
               Real.cos (degToRad lat) * Real.cos (degToRad lng) * radius]) := by
  constructor
  · constructor
    · intro hnone
      rw [latLngToECEF] at hnone
      by_cases h : lat ≤ 90 ∧ -90 ≤ lat
      · rw [if_pos h] at hnone
        exact absurd hnone (by simp)
      · by_cases h90 : lat ≤ 90
        · refine Or.inl ?_
          by_contra hlt
          push_neg at hlt
          exact h ⟨h90, hlt⟩
        · push_neg at h90
          exact Or.inr h90
    · intro hor
      rcases hor with h | h
      · rw [latLngToECEF, if_neg (by intro hc; linarith [hc.2])]
      · rw [latLngToECEF, if_neg (by intro hc; linarith [hc.1])]
  · intro hge hle
    rw [latLngToECEF, if_pos ⟨hle, hge⟩]
    rfl

/-- Witness for C9: the origin maps to the unit position on the prime
meridian at the equator. -/
theorem latLngToECEF_spec_witness : latLngToECEF 0 0 1 = some ![0, 0, 1] := by
  have h := (latLngToECEF_spec 0 0 1).2 (by norm_num) (by norm_num)
  rw [h]
  norm_num [degToRad]

/-! # C10: the logical-or fallback also fires on a zero extremum -/

/-- C10: inside aabbForTileOnGlobe the fallback to the first edge endpoint
coordinate fires not only when localExtremum returns null but also whenever
it returns exactly zero, because the fallback is a JavaScript logical-or on
the returned value. -/
theorem jsOrFallback_localExtremum_zero (arc : Arc) (dim : Fin 3) (fb : ℝ)
    (h : localExtremum arc dim = none ∨ localExtremum arc dim = some 0) :
    jsOrFallback (localExtremum arc dim) fb = fb := by
  rcases h with h | h <;> rw [h] <;> simp [jsOrFallback]

/-- An arc with a genuine zero extremum on the y axis: a quarter turn from
the x axis to the z axis around the origin. -/
theorem localExtremum_quarter_arc_y_zero :
    localExtremum (Arc.make ![1, 0, 0] ![0, 0, 1] ![0, 0, 0]) 1 = some 0 := by
  have hang : (Arc.make ![1, 0, 0] ![0, 0, 1] ![0, 0, 0]).angle = π / 2 :=
    arc_make_perp_angle (by norm_num [vdot]) (by norm_num [vdot]) (by norm_num [vdot])
  have ha1 : (Arc.make ![1, 0, 0] ![0, 0, 1] ![0, 0, 0]).a 1 = 0 := by
    rw [arc_make_a, vsub_zero3]
    norm_num
  have hb1 : (Arc.make ![1, 0, 0] ![0, 0, 1] ![0, 0, 0]).b 1 = 0 := by
    rw [arc_make_b, vsub_zero3]
    norm_num
  have hc1 : (Arc.make ![1, 0, 0] ![0, 0, 1] ![0, 0, 0]).center 1 = 0 := by
    rw [arc_make_center]
    norm_num
  have ht : tParam (Arc.make ![1, 0, 0] ![0, 0, 1] ![0, 0, 0]) 1 = 1 := by
    rw [tParam, if_pos ha1, hang]
    have hpi : π ≠ 0 := Real.pi_ne_zero
    field_simp
    ring
  rw [localExtremum, if_neg (by rw [hang]; positivity)]
  simp only [ht]
  rw [if_neg (by norm_num)]
  rw [ha1, hb1, hc1]
  simp [slerp]

/-- Witness for C10: on the quarter arc above, the y extremum is exactly
zero and the logical-or substitutes the fallback value. -/
theorem jsOrFallback_localExtremum_zero_witness :
    jsOrFallback (localExtremum (Arc.make ![1, 0, 0] ![0, 0, 1] ![0, 0, 0]) 1) 42 = 42 :=
  jsOrFallback_localExtremum_zero _ 1 42 (Or.inr localExtremum_quarter_arc_y_zero)

/-! # C2: localExtremum can return null even for a nonzero angle -/

/-- Counterexample to C2: a quarter arc with nonzero angle whose stationary
parameter on the y axis falls below zero, so localExtremum returns null
although the angle is not zero. -/
theorem localExtremum_none_with_nonzero_angle :
    (Arc.make ![1, 1, 0] ![1, -1, 0] ![0, 0, 0]).angle ≠ 0 ∧
    localExtremum (Arc.make ![1, 1, 0] ![1, -1, 0] ![0, 0, 0]) 1 = none := by
  have hang : (Arc.make ![1, 1, 0] ![1, -1, 0] ![0, 0, 0]).angle = π / 2 :=
    arc_make_perp_angle (by norm_num [vdot]) (by norm_num [vdot]) (by norm_num [vdot])
  have ha1 : (Arc.make ![1, 1, 0] ![1, -1, 0] ![0, 0, 0]).a 1 = 1 := by
    rw [arc_make_a, vsub_zero3]
    norm_num
  have hb1 : (Arc.make ![1, 1, 0] ![1, -1, 0] ![0, 0, 0]).b 1 = -1 := by
    rw [arc_make_b, vsub_zero3]
    norm_num
  have ht : tParam (Arc.make ![1, 1, 0] ![1, -1, 0] ![0, 0, 0]) 1 = -(1 / 2) := by
    rw [tParam, if_neg (by rw [ha1]; norm_num), ha1, hb1, hang]
    rw [Real.sin_pi_div_two, Real.tan_pi_div_two]
    norm_num
    have hpi : π ≠ 0 := Real.pi_ne_zero
    field_simp
    norm_num
  refine ⟨by rw [hang]; positivity, ?_⟩
  rw [localExtremum, if_neg (by rw [hang]; positivity)]
  simp only [ht]
  rw [if_pos (by norm_num)]

/-- C2 as amended: localExtremum returns null exactly when the arc's angle
is zero or the closed-form stationary parameter falls outside the unit
interval; a nonzero angle alone does not guarantee a non-null result. -/
theorem localExtremum_none_iff (arc : Arc) (dim : Fin 3) :
    localExtremum arc dim = none ↔
      arc.angle = 0 ∨ tParam arc dim < 0 ∨ 1 < tParam arc dim := by
  rw [localExtremum]
  by_cases h : arc.angle = 0
  · simp [h]
  · simp only [if_neg h]
    by_cases ht : tParam arc dim < 0 ∨ tParam arc dim > 1
    · simp only [if_pos ht]
      simpa [h] using ht
    · simp only [if_neg ht]
      simp only [gt_iff_lt] at ht
      simp [h, ht]

/-! # C4: normalization and denormalization matrices are mutual inverses -/

/-- C4: for a box with componentwise ordered corners and positive extent on
at least one axis, applying the denormalization matrix to the image of any
point under the normalization matrix recovers the point. -/
theorem globeNormalizeECEF_denormalize_inverse (B : Aabb) (p : Vec3)
    (hle : ∀ i, B.min i ≤ B.max i) (hpos : ∃ i, B.min i < B.max i) :
    transformMat4 (transformMat4 p (globeNormalizeECEF B)) (globeDenormalizeECEF B) = p := by
  have hext : 0 < max (max (B.max 0 - B.min 0) (B.max 1 - B.min 1)) (B.max 2 - B.min 2) := by
    obtain ⟨i, hi⟩ := hpos
    have key : 0 < B.max i - B.min i := by linarith
    have hle2 : B.max i - B.min i ≤
        max (max (B.max 0 - B.min 0) (B.max 1 - B.min 1)) (B.max 2 - B.min 2) := by
      fin_cases i
      · exact le_max_of_le_left (le_max_left _ _)
      · exact le_max_of_le_left (le_max_right _ _)
      · exact le_max_right _ _
    linarith
  have hmask : (0 : ℝ) < GLOBE_NORMALIZATION_MASK := by
    rw [GLOBE_NORMALIZATION_MASK, GLOBE_NORMALIZATION_BIT_RANGE]
    norm_num
  have hscale : globeECEFNormalizationScale B ≠ 0 := by
    rw [globeECEFNormalizationScale]
    positivity
  funext i
  fin_cases i <;>
    simp [globeNormalizeECEF, globeDenormalizeECEF, mat4fromScaling,
      mat4fromTranslation, mat4translate, mat4scale, transformMat4, vneg] <;>
    field_simp <;>
    ring

/-- Witness for C4: a concrete box and point recovered exactly. -/
theorem globeNormalizeECEF_denormalize_inverse_witness :
    transformMat4
      (transformMat4 ![5, -3, 7] (globeNormalizeECEF ⟨![0, 0, 0], ![1, 2, 4]⟩))
      (globeDenormalizeECEF ⟨![0, 0, 0], ![1, 2, 4]⟩) = ![5, -3, 7] :=
  globeNormalizeECEF_denormalize_inverse ⟨![0, 0, 0], ![1, 2, 4]⟩ ![5, -3, 7]
    (by intro i; fin_cases i <;> norm_num) ⟨0, by norm_num⟩

/-! # C5: the globe to mercator transition ramp -/

/-- C5: the transition factor is zero at and below the low threshold, one
at and above the high threshold, monotonically non-decreasing, and
continuous at both thresholds. -/
theorem globeToMercatorTransition_ramp :
    (∀ z, z ≤ GLOBE_ZOOM_THRESHOLD_MIN → globeToMercatorTransition z = 0) ∧
    (∀ z, GLOBE_ZOOM_THRESHOLD_MAX ≤ z → globeToMercatorTransition z = 1) ∧
    Monotone globeToMercatorTransition ∧
    ContinuousAt globeToMercatorTransition GLOBE_ZOOM_THRESHOLD_MIN ∧
    ContinuousAt globeToMercatorTransition GLOBE_ZOOM_THRESHOLD_MAX := by
  have hfun : globeToMercatorTransition =
      fun z : ℝ => (min 1 (max 0 (z - 5))) * (min 1 (max 0 (z - 5))) *
        (3 - 2 * (min 1 (max 0 (z - 5)))) := by
    funext z
    rw [globeToMercatorTransition, smoothstep, clamp,
      GLOBE_ZOOM_THRESHOLD_MIN, GLOBE_ZOOM_THRESHOLD_MAX]
    norm_num
  have hcont : Continuous globeToMercatorTransition := by
    rw [hfun]
    have h1 : Continuous fun z : ℝ => min 1 (max 0 (z - 5)) :=
      (continuous_const.min ((continuous_const.max
        (continuous_id.sub continuous_const))))
    exact (h1.mul h1).mul (continuous_const.sub (continuous_const.mul h1))
  refine ⟨?_, ?_, ?_, hcont.continuousAt, hcont.continuousAt⟩
  · intro z hz
    rw [GLOBE_ZOOM_THRESHOLD_MIN] at hz
    rw [hfun]
    have : max 0 (z - 5) = 0 := max_eq_left (by linarith)
    simp [this]
  · intro z hz
    rw [GLOBE_ZOOM_THRESHOLD_MAX] at hz
    rw [hfun]
    have h1 : (1 : ℝ) ≤ z - 5 := by linarith
    have h2 : max 0 (z - 5) = z - 5 := max_eq_right (by linarith)
    have h3 : min 1 (max 0 (z - 5)) = 1 := by
      rw [h2]
      exact min_eq_left h1
    simp [h3]
    norm_num
  · intro a b hab
    rw [hfun]
    simp only
    set ta := min 1 (max 0 (a - 5)) with hta
    set tb := min 1 (max 0 (b - 5)) with htb
    have h0a : 0 ≤ ta := le_min (by norm_num) (le_max_left _ _) |>.trans_eq rfl
    have h0b : 0 ≤ tb := le_min (by norm_num) (le_max_left _ _) |>.trans_eq rfl
    have h1a : ta ≤ 1 := min_le_left _ _
    have h1b : tb ≤ 1 := min_le_left _ _
    have hab2 : ta ≤ tb := by
      apply min_le_min le_rfl
      exact max_le_max le_rfl (by linarith)
    nlinarith [mul_nonneg h0a (sub_nonneg.mpr h1a), mul_nonneg h0b (sub_nonneg.mpr h1b),
      mul_nonneg (sub_nonneg.mpr hab2) (mul_nonneg h0a h0b),
      mul_nonneg (mul_nonneg h0a h0a) (sub_nonneg.mpr h1b),
      mul_nonneg (sub_nonneg.mpr hab2) (sub_nonneg.mpr h1a),
      mul_nonneg (sub_nonneg.mpr hab2) (sub_nonneg.mpr h1b)]

/-- Witness for C5: the factor is zero at the low threshold and one at the
high threshold. -/
theorem globeToMercatorTransition_ramp_witness :
    globeToMercatorTransition 5 = 0 ∧ globeToMercatorTransition 6 = 1 :=
  ⟨globeToMercatorTransition_ramp.1 5 (by norm_num [GLOBE_ZOOM_THRESHOLD_MIN]),
   globeToMercatorTransition_ramp.2.1 6 (by norm_num [GLOBE_ZOOM_THRESHOLD_MAX])⟩

/-! # C3: the extremum value can exceed both endpoint values -/

theorem foldArc_a0 : (Arc.make ![1, 1, 0] ![1, -1, 0] ![0, 0, 0]).a 0 = 1 := by
  rw [arc_make_a, vsub_zero3]
  norm_num

theorem foldArc_b0 : (Arc.make ![1, 1, 0] ![1, -1, 0] ![0, 0, 0]).b 0 = 1 := by
  rw [arc_make_b, vsub_zero3]
  norm_num

theorem foldArc_c0 : (Arc.make ![1, 1, 0] ![1, -1, 0] ![0, 0, 0]).center 0 = 0 := by
  rw [arc_make_center]
  norm_num

theorem foldArc_angle : (Arc.make ![1, 1, 0] ![1, -1, 0] ![0, 0, 0]).angle = π / 2 :=
  arc_make_perp_angle (by norm_num [vdot]) (by norm_num [vdot]) (by norm_num [vdot])

theorem tParam_foldArc_x : tParam (Arc.make ![1, 1, 0] ![1, -1, 0] ![0, 0, 0]) 0 = 1 / 2 := by
  rw [tParam, if_neg (by rw [foldArc_a0]; norm_num), foldArc_a0, foldArc_b0, foldArc_angle]
  rw [Real.sin_pi_div_two, Real.tan_pi_div_two]
  norm_num [Real.arctan_one]
  have hpi : π ≠ 0 := Real.pi_ne_zero
  field_simp
  norm_num

theorem localExtremum_foldArc_x :
    localExtremum (Arc.make ![1, 1, 0] ![1, -1, 0] ![0, 0, 0]) 0 = some (Real.sqrt 2) := by
  rw [localExtremum, if_neg (by rw [foldArc_angle]; positivity)]
  simp only [tParam_foldArc_x]
  rw [if_neg (by norm_num)]
  congr 1
  rw [foldArc_a0, foldArc_b0, foldArc_c0, foldArc_angle]
  have hc : clamp (1 / 2 : ℝ) 0 1 = 1 / 2 := by
    rw [clamp]
    norm_num
  rw [hc, slerp]
  simp only [Real.sin_pi_div_two]
  have e1 : (1 - 1 / 2 : ℝ) * (π / 2) = π / 4 := by ring
  have e2 : (1 / 2 : ℝ) * (π / 2) = π / 4 := by ring
  rw [e1, e2, Real.sin_pi_div_four]
  ring

/-- Counterexample to C3: on the arc from (1,1,0) to (1,-1,0) about the
origin, localExtremum on the x dimension returns the square root of two,
which is strictly above both endpoint values on that axis. -/
theorem localExtremum_exceeds_endpoints :
    localExtremum (Arc.make ![1, 1, 0] ![1, -1, 0] ![0, 0, 0]) 0 = some (Real.sqrt 2) ∧
    (Arc.make ![1, 1, 0] ![1, -1, 0] ![0, 0, 0]).a 0 +
      (Arc.make ![1, 1, 0] ![1, -1, 0] ![0, 0, 0]).center 0 < Real.sqrt 2 ∧
    (Arc.make ![1, 1, 0] ![1, -1, 0] ![0, 0, 0]).b 0 +
      (Arc.make ![1, 1, 0] ![1, -1, 0] ![0, 0, 0]).center 0 < Real.sqrt 2 := by
  have h12 : (1 : ℝ) < Real.sqrt 2 := by
    have : Real.sqrt 1 < Real.sqrt 2 := Real.sqrt_lt_sqrt (by norm_num) (by norm_num)
    simpa using this
  refine ⟨localExtremum_foldArc_x, ?_, ?_⟩
  · rw [foldArc_a0, foldArc_c0]
    simpa using h12
  · rw [foldArc_b0, foldArc_c0]
    simpa using h12

/-- The slerp of two coordinates with parameter in the unit interval and
angle strictly between zero and pi is bounded in absolute value by the
larger endpoint magnitude divided by the cosine of half the angle. -/
theorem slerp_abs_le (a b θ t : ℝ) (h0 : 0 < θ) (hπ : θ < π)
    (ht0 : 0 ≤ t) (ht1 : t ≤ 1) :
    |slerp a b θ t| ≤ max |a| |b| / Real.cos (θ / 2) := by
  have hsin : 0 < Real.sin θ := Real.sin_pos_of_pos_of_lt_pi h0 hπ
  have hsh : 0 < Real.sin (θ / 2) :=
    Real.sin_pos_of_pos_of_lt_pi (by linarith) (by linarith [Real.pi_pos])
  have hcos : 0 < Real.cos (θ / 2) :=
    Real.cos_pos_of_mem_Ioo ⟨by linarith [Real.pi_pos], by linarith⟩
  have hX : 0 ≤ Real.sin ((1 - t) * θ) :=
    Real.sin_nonneg_of_nonneg_of_le_pi (by nlinarith) (by nlinarith)
  have hY : 0 ≤ Real.sin (t * θ) :=
    Real.sin_nonneg_of_nonneg_of_le_pi (by nlinarith) (by nlinarith)
  have hsum : Real.sin ((1 - t) * θ) + Real.sin (t * θ) =
      2 * Real.sin (θ / 2) * Real.cos ((1 - 2 * t) * θ / 2) := by
    have h := Real.sin_sub_sin ((1 - t) * θ) (-(t * θ))
    rw [Real.sin_neg, sub_neg_eq_add] at h
    have e1 : ((1 - t) * θ - -(t * θ)) / 2 = θ / 2 := by ring
    have e2 : ((1 - t) * θ + -(t * θ)) / 2 = (1 - 2 * t) * θ / 2 := by ring
    rw [e1, e2] at h
    exact h
  have hsin2 : Real.sin θ = 2 * Real.sin (θ / 2) * Real.cos (θ / 2) := by
    have h := Real.sin_two_mul (θ / 2)
    rw [show 2 * (θ / 2) = θ by ring] at h
    linarith
  have hM0 : 0 ≤ max |a| |b| := le_trans (abs_nonneg a) (le_max_left _ _)
  have habs : |slerp a b θ t| ≤
      |a| * (Real.sin ((1 - t) * θ) / Real.sin θ) +
      |b| * (Real.sin (t * θ) / Real.sin θ) := by
    simp only [slerp]
    refine (abs_add _ _).trans ?_
    rw [abs_mul, abs_mul, abs_of_nonneg (div_nonneg hX hsin.le),
      abs_of_nonneg (div_nonneg hY hsin.le)]
  have hstep : |a| * (Real.sin ((1 - t) * θ) / Real.sin θ) +
      |b| * (Real.sin (t * θ) / Real.sin θ) ≤
      max |a| |b| * ((Real.sin ((1 - t) * θ) + Real.sin (t * θ)) / Real.sin θ) := by
    rw [add_div, mul_add]
    gcongr
    · exact le_max_left _ _
    · exact le_max_right _ _
  have hXY : (Real.sin ((1 - t) * θ) + Real.sin (t * θ)) / Real.sin θ ≤
      1 / Real.cos (θ / 2) := by
    rw [hsum, hsin2, div_le_div_iff (by positivity) hcos]
    have hC : Real.cos ((1 - 2 * t) * θ / 2) ≤ 1 := Real.cos_le_one _
    nlinarith
  calc |slerp a b θ t| ≤
      |a| * (Real.sin ((1 - t) * θ) / Real.sin θ) +
      |b| * (Real.sin (t * θ) / Real.sin θ) := habs
    _ ≤ max |a| |b| * ((Real.sin ((1 - t) * θ) + Real.sin (t * θ)) / Real.sin θ) := hstep
    _ ≤ max |a| |b| * (1 / Real.cos (θ / 2)) := by
        exact mul_le_mul_of_nonneg_left hXY hM0
    _ = max |a| |b| / Real.cos (θ / 2) := by rw [mul_one_div]

/-- C3 as amended: with angle strictly between zero and pi, a non-null
localExtremum value need not lie between the two endpoint values, but its
offset from the arc center is bounded by the larger endpoint offset
magnitude divided by the cosine of half the angle, and the bound is tight
for the counterexample arc. -/
theorem localExtremum_bounded (arc : Arc) (dim : Fin 3) (v : ℝ)
    (h0 : 0 < arc.angle) (hπ : arc.angle < π)
    (hv : localExtremum arc dim = some v) :
    |v - arc.center dim| ≤ max |arc.a dim| |arc.b dim| / Real.cos (arc.angle / 2) := by
  rw [localExtremum, if_neg h0.ne'] at hv
  by_cases hg : tParam arc dim < 0 ∨ tParam arc dim > 1
  · rw [if_pos hg] at hv
    exact absurd hv (by simp)
  · rw [if_neg hg] at hv
    push_neg at hg
    obtain ⟨hg0, hg1⟩ := hg
    have hclamp : clamp (tParam arc dim) 0 1 = tParam arc dim := by
      rw [clamp, max_eq_right hg0, min_eq_right hg1]
    rw [hclamp] at hv
    have hv2 : v = slerp (arc.a dim) (arc.b dim) arc.angle (tParam arc dim) +
        arc.center dim := (Option.some.injEq _ _).mp hv |>.symm
    rw [hv2, add_sub_cancel_right]
    exact slerp_abs_le _ _ _ _ h0 hπ hg0 hg1

/-- Witness for the amended C3: on the counterexample arc the bound holds
with equality, the square root of two. -/
theorem localExtremum_bounded_witness :
    |Real.sqrt 2 - (Arc.make ![1, 1, 0] ![1, -1, 0] ![0, 0, 0]).center 0| ≤
      max |(Arc.make ![1, 1, 0] ![1, -1, 0] ![0, 0, 0]).a 0|
        |(Arc.make ![1, 1, 0] ![1, -1, 0] ![0, 0, 0]).b 0| /
        Real.cos ((Arc.make ![1, 1, 0] ![1, -1, 0] ![0, 0, 0]).angle / 2) :=
  localExtremum_bounded (Arc.make ![1, 1, 0] ![1, -1, 0] ![0, 0, 0]) 0 (Real.sqrt 2)
    (by rw [foldArc_angle]; positivity)
    (by rw [foldArc_angle]; linarith [Real.pi_pos])
    localExtremum_foldArc_x

/-! # C8: occlusion test against the tilted horizon threshold -/

/-- C8: with both latitudes within the assertion range, isLngLatBehindGlobe
holds exactly when the angle between the outward normal at the point, its
ECEF position, and the vector from the point to the camera exceeds ninety
degrees times one point zero one, as computed by globeTiltAtLngLat. -/
theorem isLngLatBehindGlobe_iff_tilt (tr : Transform) (lngLat : LngLat)
    (hp1 : -90 ≤ lngLat.lat) (hp2 : lngLat.lat ≤ 90)
    (hc1 : -90 ≤ tr.center.lat) (hc2 : tr.center.lat ≤ 90) :
    ∃ cam, cameraPositionInECEF tr = some cam ∧
      (isLngLatBehindGlobe tr lngLat ↔
        vangle
          (vsub cam (csLatLngToECEF (Real.cos (degToRad lngLat.lat))
            (Real.sin (degToRad lngLat.lat)) lngLat.lng GLOBE_RADIUS))
          (csLatLngToECEF (Real.cos (degToRad lngLat.lat))
            (Real.sin (degToRad lngLat.lat)) lngLat.lng GLOBE_RADIUS) >
          π / 2 * 1.01) := by
  have hP : latLngToECEF lngLat.lat lngLat.lng GLOBE_RADIUS =
      some (csLatLngToECEF (Real.cos (degToRad lngLat.lat))
        (Real.sin (degToRad lngLat.lat)) lngLat.lng GLOBE_RADIUS) := by
    rw [latLngToECEF, if_pos ⟨hp2, hp1⟩]
  have hcent : latLngToECEF tr.center.lat tr.center.lng GLOBE_RADIUS =
      some (csLatLngToECEF (Real.cos (degToRad tr.center.lat))
        (Real.sin (degToRad tr.center.lat)) tr.center.lng GLOBE_RADIUS) := by
    rw [latLngToECEF, if_pos ⟨hc2, hc1⟩]
  obtain ⟨cam, hcam⟩ : ∃ cam, cameraPositionInECEF tr = some cam := by
    rw [cameraPositionInECEF, hcent]
    exact ⟨_, rfl⟩
  refine ⟨cam, hcam, ?_⟩
  have htilt : globeTiltAtLngLat tr lngLat =
      some (vangle
        (vsub cam (csLatLngToECEF (Real.cos (degToRad lngLat.lat))
          (Real.sin (degToRad lngLat.lat)) lngLat.lng GLOBE_RADIUS))
        (csLatLngToECEF (Real.cos (degToRad lngLat.lat))
          (Real.sin (degToRad lngLat.lat)) lngLat.lng GLOBE_RADIUS)) := by
    rw [globeTiltAtLngLat, hP]
    simp [hcam]
  rw [isLngLatBehindGlobe]
  constructor
  · rintro ⟨t, ht, hgt⟩
    rw [htilt] at ht
    have heq := (Option.some.injEq _ _).mp ht
    rw [heq]
    exact hgt
  · intro h
    exact ⟨_, htilt, h⟩

/-- A concrete camera state: centered at latitude and longitude zero, no
bearing, no pitch, unit distances. -/
def trIdentity : Transform :=
  ⟨1, 0, ⟨0, 0⟩, 0, 0, mat4fromTranslation ![0, 0, 0], 1, 0, 0, 1, 1⟩

theorem GLOBE_RADIUS_pos : 0 < GLOBE_RADIUS := by
  rw [GLOBE_RADIUS, EXTENT]
  positivity

theorem degToRad_zero : degToRad 0 = 0 := by
  rw [degToRad]
  ring

theorem GLOBE_METERS_TO_ECEF_pos : 0 < GLOBE_METERS_TO_ECEF := by
  rw [GLOBE_METERS_TO_ECEF, mercatorZfromAltitude, circumferenceAtLatitude,
    earthRadius, GLOBE_RADIUS, EXTENT]
  simp [degToRad_zero]
  positivity

theorem csLatLngToECEF_origin :
    csLatLngToECEF (Real.cos (degToRad 0)) (Real.sin (degToRad 0)) 0 GLOBE_RADIUS =
      ![0, 0, GLOBE_RADIUS] := by
  funext i
  fin_cases i <;> simp [csLatLngToECEF, degToRad_zero]

theorem mat4fromRotation_zero (axis : Vec3) :
    mat4fromRotation 0 axis = ⟨1, 0, 0, 0, 0, 1, 0, 0, 0, 0, 1, 0, 0, 0, 0, 1⟩ := by
  simp [mat4fromRotation]

theorem transformMat4_id (p : Vec3) :
    transformMat4 p ⟨1, 0, 0, 0, 0, 1, 0, 0, 0, 0, 1, 0, 0, 0, 0, 1⟩ = p := by
  funext i
  fin_cases i <;> simp [transformMat4]

theorem vnormalize_zaxis (r : ℝ) (hr : 0 < r) : vnormalize ![0, 0, r] = ![0, 0, 1] := by
  have hd : vdot ![0, 0, r] ![0, 0, r] = r ^ 2 := by
    norm_num [vdot]
    ring
  have hl : vlength ![0, 0, r] = r := by
    rw [vlength, hd, Real.sqrt_sq hr.le]
  rw [vnormalize, if_neg (by rw [hl]; exact hr.ne')]
  rw [hl]
  funext i
  fin_cases i <;> simp [vscale] <;> field_simp

theorem vangle_zaxis (u v : ℝ) (hu : 0 < u) (hv : 0 < v) :
    vangle ![0, 0, u] ![0, 0, v] = 0 := by
  have hdu : vdot ![0, 0, u] ![0, 0, u] = u ^ 2 := by
    norm_num [vdot]
    ring
  have hdv : vdot ![0, 0, v] ![0, 0, v] = v ^ 2 := by
    norm_num [vdot]
    ring
  have hduv : vdot ![0, 0, u] ![0, 0, v] = u * v := by
    norm_num [vdot]
  have hmag : Real.sqrt (vdot ![0, 0, u] ![0, 0, u] * vdot ![0, 0, v] ![0, 0, v]) =
      u * v := by
    rw [hdu, hdv, show u ^ 2 * v ^ 2 = (u * v) ^ 2 by ring,
      Real.sqrt_sq (by positivity)]
  have huv : u * v ≠ 0 := by positivity
  simp only [vangle, hmag, hduv, if_neg huv]
  rw [div_self huv]
  have hclamp : clamp 1 (-1) 1 = 1 := by
    rw [clamp]
    norm_num
  rw [hclamp, Real.arccos_one]

theorem cameraPositionInECEF_trIdentity :
    cameraPositionInECEF trIdentity =
      some ![0, 0, GLOBE_RADIUS + GLOBE_METERS_TO_ECEF] := by
  rw [cameraPositionInECEF]
  have hcent : latLngToECEF trIdentity.center.lat trIdentity.center.lng GLOBE_RADIUS =
      some ![0, 0, GLOBE_RADIUS] := by
    show latLngToECEF 0 0 GLOBE_RADIUS = _
    rw [latLngToECEF, if_pos (by norm_num)]
    rw [csLatLngToECEF_origin]
  rw [hcent, Option.map_some']
  congr 1
  have hang : trIdentity.angle = 0 := rfl
  have hpitch : trIdentity.pitch = 0 := rfl
  have hdist : trIdentity.cameraToCenterDistance = 1 := rfl
  have hppm : trIdentity.pixelsPerMeter = 1 := rfl
  simp only [hang, hpitch, hdist, hppm, neg_zero, mat4fromRotation_zero,
    transformMat4_id, vnormalize_zaxis GLOBE_RADIUS GLOBE_RADIUS_pos]
  funext i
  fin_cases i <;> simp [vadd, vscale]

/-- Witness for C8: for the camera directly above the queried point the
tilt angle is zero and the point is not behind the globe. -/
theorem isLngLatBehindGlobe_iff_tilt_witness :
    ¬ isLngLatBehindGlobe trIdentity ⟨0, 0⟩ := by
  obtain ⟨cam, hcam, hiff⟩ :=
    isLngLatBehindGlobe_iff_tilt trIdentity ⟨0, 0⟩ (by norm_num) (by norm_num)
      (by show (-90 : ℝ) ≤ 0; norm_num) (by show (0 : ℝ) ≤ 90; norm_num)
  rw [hiff]
  have hcam2 := cameraPositionInECEF_trIdentity
  rw [hcam] at hcam2
  have hcameq : cam = ![0, 0, GLOBE_RADIUS + GLOBE_METERS_TO_ECEF] :=
    (Option.some.injEq _ _).mp hcam2
  rw [hcameq]
  have hlat : (⟨0, 0⟩ : LngLat).lat = 0 := rfl
  have hlng : (⟨0, 0⟩ : LngLat).lng = 0 := rfl
  rw [hlat, hlng, csLatLngToECEF_origin]
  have hsub : vsub ![0, 0, GLOBE_RADIUS + GLOBE_METERS_TO_ECEF] ![0, 0, GLOBE_RADIUS] =
      ![0, 0, GLOBE_METERS_TO_ECEF] := by
    funext i
    fin_cases i <;> simp [vsub]
  rw [hsub, vangle_zaxis GLOBE_METERS_TO_ECEF GLOBE_RADIUS GLOBE_METERS_TO_ECEF_pos
    GLOBE_RADIUS_pos]
  push_neg
  positivity

/-! # Fold lemmas for the corner min and max accumulation -/

theorem foldl_vmin_le_init (l : List Vec3) (init : Vec3) (i : Fin 3) :
    (l.foldl vmin init) i ≤ init i := by
  induction l generalizing init with
  | nil => simp
  | cons hd tl ih =>
    simp only [List.foldl_cons]
    exact le_trans (ih (vmin init hd)) (min_le_left _ _)

theorem foldl_vmin_le (l : List Vec3) (init : Vec3) (v : Vec3) (hv : v ∈ l) (i : Fin 3) :
    (l.foldl vmin init) i ≤ v i := by
  induction l generalizing init with
  | nil => cases hv
  | cons hd tl ih =>
    simp only [List.foldl_cons]
    rcases List.mem_cons.mp hv with rfl | hv2
    · exact le_trans (foldl_vmin_le_init tl (vmin init v) i) (min_le_right _ _)
    · exact ih (vmin init hd) hv2

theorem foldl_vmax_ge_init (l : List Vec3) (init : Vec3) (i : Fin 3) :
    init i ≤ (l.foldl vmax init) i := by
  induction l generalizing init with
  | nil => simp
  | cons hd tl ih =>
    simp only [List.foldl_cons]
    exact le_trans (le_max_left _ _) (ih (vmax init hd))

theorem foldl_vmax_ge (l : List Vec3) (init : Vec3) (v : Vec3) (hv : v ∈ l) (i : Fin 3) :
    v i ≤ (l.foldl vmax init) i := by
  induction l generalizing init with
  | nil => cases hv
  | cons hd tl ih =>
    simp only [List.foldl_cons]
    rcases List.mem_cons.mp hv with rfl | hv2
    · exact le_trans (le_max_right _ _) (foldl_vmax_ge_init tl (vmax init v) i)
    · exact ih (vmax init hd) hv2

/-- The camera-center branch of aabbForTileOnGlobe in closed form. -/
theorem aabbForTileOnGlobe_center_eq (tr : Transform) (numTiles : ℝ) (tileId : TileID)
    (hz : ¬ tileId.z ≤ 1)
    (hc : (tileCornersToBounds tileId).contains tr.center) :
    aabbForTileOnGlobe tr numTiles tileId =
      ⟨vmin ((worldCorners tr numTiles tileId).foldl vmin
          ![maxNumber, maxNumber, maxNumber])
         ![tr.pointX * (numTiles / tr.worldSize),
           tr.pointY * (numTiles / tr.worldSize), 0],
       vmax (Function.update ((worldCorners tr numTiles tileId).foldl vmax
            ![-maxNumber, -maxNumber, -maxNumber]) 2 (0 : ℝ))
         ![tr.pointX * (numTiles / tr.worldSize),
           tr.pointY * (numTiles / tr.worldSize), 0]⟩ := by
  simp only [aabbForTileOnGlobe]
  rw [if_neg hz, if_pos hc]

/-! # C7: the camera-center branch and its height clamp -/


theorem aabb_mk_min (mn mx : Vec3) : (Aabb.mk mn mx).min = mn := rfl

theorem aabb_mk_max (mn mx : Vec3) : (Aabb.mk mn mx).max = mx := rfl

theorem latFromMercatorY_half : latFromMercatorY (1 / 2) = 0 := by
  rw [latFromMercatorY]
  norm_num
  have hπ : π ≠ 0 := Real.pi_ne_zero
  field_simp
  ring

theorem latFromMercatorY_quarter_pos : 0 < latFromMercatorY (1 / 4) := by
  rw [latFromMercatorY]
  have h1 : (1 : ℝ) < Real.exp ((180 - 1 / 4 * 360) * π / 180) := by
    rw [Real.one_lt_exp_iff]
    positivity
  have h2 : Real.arctan 1 < Real.arctan (Real.exp ((180 - 1 / 4 * 360) * π / 180)) :=
    Real.arctan_strictMono h1
  rw [Real.arctan_one] at h2
  have hπ := Real.pi_pos
  have h3 : 90 < 360 / π * Real.arctan (Real.exp ((180 - 1 / 4 * 360) * π / 180)) := by
    rw [div_mul_eq_mul_div, lt_div_iff hπ]
    nlinarith
  linarith

theorem latFromMercatorY_quarter_lt_90 : latFromMercatorY (1 / 4) < 90 := by
  rw [latFromMercatorY]
  have h2 : Real.arctan (Real.exp ((180 - 1 / 4 * 360) * π / 180)) < π / 2 :=
    Real.arctan_lt_pi_div_two _
  have hπ := Real.pi_pos
  have h3 : 360 / π * Real.arctan (Real.exp ((180 - 1 / 4 * 360) * π / 180)) < 180 := by
    rw [div_mul_eq_mul_div, div_lt_iff hπ]
    nlinarith
  linarith

theorem tile201_bounds :
    tileCornersToBounds ⟨2, 0, 1⟩ =
      ⟨⟨-180, latFromMercatorY (1 / 2)⟩, ⟨-90, latFromMercatorY (1 / 4)⟩⟩ := by
  simp only [tileCornersToBounds, lngFromMercatorX]
  norm_num

theorem tile201_contains_west_equator :
    (tileCornersToBounds ⟨2, 0, 1⟩).contains ⟨-135, 0⟩ := by
  rw [tile201_bounds, LngLatBounds.contains]
  refine ⟨?_, ?_, by norm_num, by norm_num⟩
  · show latFromMercatorY (1 / 2) ≤ (0 : ℝ)
    rw [latFromMercatorY_half]
  · show (0 : ℝ) ≤ latFromMercatorY (1 / 4)
    exact latFromMercatorY_quarter_pos.le

/-- C7 as amended: in the camera-center branch the returned box contains
the world-space camera center projection at height zero, bounds every
transformed scaled corner from below on all axes and from above on the x
and y axes, has its maximum height clamped to exactly zero, and therefore
fully contains exactly those corners whose transformed height is at most
zero. -/
theorem aabbForTileOnGlobe_center_extends (tr : Transform) (numTiles : ℝ)
    (tileId : TileID) (hz : 2 ≤ tileId.z)
    (hc : (tileCornersToBounds tileId).contains tr.center) :
    (aabbForTileOnGlobe tr numTiles tileId).containsPoint
      ![tr.pointX * (numTiles / tr.worldSize),
        tr.pointY * (numTiles / tr.worldSize), 0] ∧
    (aabbForTileOnGlobe tr numTiles tileId).max 2 = 0 ∧
    (∀ c ∈ worldCorners tr numTiles tileId,
      (∀ i : Fin 3, (aabbForTileOnGlobe tr numTiles tileId).min i ≤ c i) ∧
      c 0 ≤ (aabbForTileOnGlobe tr numTiles tileId).max 0 ∧
      c 1 ≤ (aabbForTileOnGlobe tr numTiles tileId).max 1) ∧
    (∀ c ∈ worldCorners tr numTiles tileId, c 2 ≤ 0 →
      (aabbForTileOnGlobe tr numTiles tileId).containsPoint c) := by
  have hz1 : ¬ tileId.z ≤ 1 := by omega
  rw [aabbForTileOnGlobe_center_eq tr numTiles tileId hz1 hc]
  simp only [Aabb.containsPoint, aabb_mk_min, aabb_mk_max]
  have hcenter2 :
      (![tr.pointX * (numTiles / tr.worldSize),
         tr.pointY * (numTiles / tr.worldSize), 0] : Vec3) 2 = 0 := by
    norm_num
  have hmax2 :
      vmax (Function.update ((worldCorners tr numTiles tileId).foldl vmax
          ![-maxNumber, -maxNumber, -maxNumber]) 2 (0 : ℝ))
        ![tr.pointX * (numTiles / tr.worldSize),
          tr.pointY * (numTiles / tr.worldSize), 0] 2 = 0 := by
    rw [vmax, Function.update_same, hcenter2]
    norm_num
  have hmax01 : ∀ j : Fin 3, j ≠ 2 → ∀ c ∈ worldCorners tr numTiles tileId,
      c j ≤ vmax (Function.update ((worldCorners tr numTiles tileId).foldl vmax
          ![-maxNumber, -maxNumber, -maxNumber]) 2 (0 : ℝ))
        ![tr.pointX * (numTiles / tr.worldSize),
          tr.pointY * (numTiles / tr.worldSize), 0] j := by
    intro j hj c hcmem
    have h1 : c j ≤ ((worldCorners tr numTiles tileId).foldl vmax
        ![-maxNumber, -maxNumber, -maxNumber]) j := foldl_vmax_ge _ _ c hcmem j
    have h2 : ((worldCorners tr numTiles tileId).foldl vmax
        ![-maxNumber, -maxNumber, -maxNumber]) j =
        Function.update ((worldCorners tr numTiles tileId).foldl vmax
          ![-maxNumber, -maxNumber, -maxNumber]) 2 (0 : ℝ) j :=
      (Function.update_noteq hj _ _).symm
    simp only [vmax]
    exact le_trans h1 (le_trans (le_of_eq h2) (le_max_left _ _))
  have hminle : ∀ c ∈ worldCorners tr numTiles tileId, ∀ i : Fin 3,
      vmin ((worldCorners tr numTiles tileId).foldl vmin
          ![maxNumber, maxNumber, maxNumber])
        ![tr.pointX * (numTiles / tr.worldSize),
          tr.pointY * (numTiles / tr.worldSize), 0] i ≤ c i := by
    intro c hcmem i
    exact le_trans (min_le_left _ _) (foldl_vmin_le _ _ c hcmem i)
  refine ⟨?_, hmax2, ?_, ?_⟩
  · intro i
    exact ⟨min_le_right _ _, le_max_right _ _⟩
  · intro c hcmem
    exact ⟨hminle c hcmem, hmax01 0 (by decide) c hcmem, hmax01 1 (by decide) c hcmem⟩
  · intro c hcmem hc2
    intro i
    refine ⟨hminle c hcmem i, ?_⟩
    rcases eq_or_ne i 2 with rfl | hne
    · rw [hmax2]
      exact hc2
    · exact hmax01 i hne c hcmem

/-- A degenerate globe matrix with zero linear part which translates every
point to height one. -/
def matZshift : Mat4 := ⟨0, 0, 0, 0, 0, 0, 0, 0, 0, 0, 0, 0, 0, 0, 1, 1⟩

/-- A camera state centered inside the tile z=2, x=0, y=1 whose globe
matrix is matZshift. -/
def trZshift : Transform := ⟨1, 0, ⟨-135, 0⟩, 0, 0, matZshift, 1, 0, 0, 1, 1⟩

theorem transformMat4_matZshift (p : Vec3) : transformMat4 p matZshift = ![0, 0, 1] := by
  funext i
  fin_cases i <;> simp [transformMat4, matZshift]

theorem worldCorners_trZshift :
    worldCorners trZshift 1 ⟨2, 0, 1⟩ = [![0, 0, 1], ![0, 0, 1], ![0, 0, 1], ![0, 0, 1]] := by
  have hv : ∀ c : Vec3, vscale (1 / trZshift.worldSize) (transformMat4 c trZshift.globeMatrix) =
      ![0, 0, 1] := by
    intro c
    have hm : trZshift.globeMatrix = matZshift := rfl
    have hw : trZshift.worldSize = 1 := rfl
    rw [hm, hw, transformMat4_matZshift]
    funext i
    fin_cases i <;> simp [vscale]
  simp only [worldCorners, boundsToECEF, List.map_cons, List.map_nil, hv]

/-- Counterexample to C7: with the matZshift camera state over tile z=2,
x=0, y=1 the geographic rectangle contains the camera center, every
transformed scaled corner sits at height one, yet the returned box has its
maximum height clamped to zero and does not contain the corners. -/
theorem aabbForTileOnGlobe_center_misses_corner :
    (tileCornersToBounds ⟨2, 0, 1⟩).contains trZshift.center ∧
    ¬ (aabbForTileOnGlobe trZshift 1 ⟨2, 0, 1⟩).containsPoint
      ((worldCorners trZshift 1 ⟨2, 0, 1⟩).getD 0 ![0, 0, 0]) := by
  have hcont : (tileCornersToBounds ⟨2, 0, 1⟩).contains trZshift.center := by
    show (tileCornersToBounds ⟨2, 0, 1⟩).contains ⟨-135, 0⟩
    exact tile201_contains_west_equator
  refine ⟨hcont, ?_⟩
  intro hcontains
  have h2 := (hcontains 2).2
  rw [aabbForTileOnGlobe_center_eq trZshift 1 ⟨2, 0, 1⟩ (by norm_num) hcont] at h2
  rw [worldCorners_trZshift] at h2
  simp only [aabb_mk_max, List.getD_cons_zero] at h2
  rw [vmax] at h2
  rw [Function.update_same] at h2
  norm_num at h2

/-- Witness for the amended C7: the center-branch box for the concrete
camera state contains the camera center projection and has maximum height
zero. -/
theorem aabbForTileOnGlobe_center_extends_witness :
    (aabbForTileOnGlobe trZshift 1 ⟨2, 0, 1⟩).containsPoint
      ![trZshift.pointX * (1 / trZshift.worldSize),
        trZshift.pointY * (1 / trZshift.worldSize), 0] ∧
    (aabbForTileOnGlobe trZshift 1 ⟨2, 0, 1⟩).max 2 = 0 :=
  ⟨(aabbForTileOnGlobe_center_extends trZshift 1 ⟨2, 0, 1⟩ (by norm_num)
      tile201_contains_west_equator).1,
   (aabbForTileOnGlobe_center_extends trZshift 1 ⟨2, 0, 1⟩ (by norm_num)
      tile201_contains_west_equator).2.1⟩

/-! # C1: the transition branch never folds the interpolated corners -/

/-- The camera state exercising the transition branch: zoom five and a
half, centered south-west of tile z=2, x=0, y=1, identity globe matrix and
a large mercator pixel ratio. -/
def trPhase : Transform :=
  ⟨1, 11 / 2, ⟨-135, -10⟩, 0, 0, ⟨1, 0, 0, 0, 0, 1, 0, 0, 0, 0, 1, 0, 0, 0, 0, 1⟩,
   1000, 0, 0, 1, 1⟩

theorem tile201_bounds_south_zero :
    tileCornersToBounds ⟨2, 0, 1⟩ = ⟨⟨-180, 0⟩, ⟨-90, latFromMercatorY (1 / 4)⟩⟩ := by
  rw [tile201_bounds, latFromMercatorY_half]

theorem degToRad_neg180 : degToRad (-180) = -π := by
  rw [degToRad]
  field_simp
  ring

theorem degToRad_neg90 : degToRad (-90) = -(π / 2) := by
  rw [degToRad]
  field_simp
  ring

theorem globeToMercatorTransition_half : globeToMercatorTransition (11 / 2) = 1 / 2 := by
  rw [globeToMercatorTransition, smoothstep, clamp,
    GLOBE_ZOOM_THRESHOLD_MIN, GLOBE_ZOOM_THRESHOLD_MAX]
  norm_num

theorem mercatorYfromLat_lt_half {lat : ℝ} (h0 : 0 < lat) (h90 : lat < 90) :
    mercatorYfromLat lat < 1 / 2 := by
  rw [mercatorYfromLat]
  have hπ := Real.pi_pos
  have harg1 : π / 4 < π / 4 + lat * π / 360 := by nlinarith
  have harg2 : π / 4 + lat * π / 360 < π / 2 := by nlinarith
  have htan : 1 < Real.tan (π / 4 + lat * π / 360) := by
    have := Real.tan_lt_tan_of_lt_of_lt_pi_div_two (by nlinarith) harg2 harg1
    rwa [Real.tan_pi_div_four] at this
  have hlog : 0 < Real.log (Real.tan (π / 4 + lat * π / 360)) := Real.log_pos htan
  have hmul : 0 < 180 / π * Real.log (Real.tan (π / 4 + lat * π / 360)) := by
    positivity
  linarith

theorem half_lt_mercatorYfromLat {lat : ℝ} (hm90 : -90 < lat) (h0 : lat < 0) :
    1 / 2 < mercatorYfromLat lat := by
  rw [mercatorYfromLat]
  have hπ := Real.pi_pos
  have harg0 : 0 < π / 4 + lat * π / 360 := by nlinarith
  have harg1 : π / 4 + lat * π / 360 < π / 4 := by nlinarith
  have htan1 : Real.tan (π / 4 + lat * π / 360) < 1 := by
    have := Real.tan_lt_tan_of_lt_of_lt_pi_div_two (by nlinarith) (by nlinarith) harg1
    rwa [Real.tan_pi_div_four] at this
  have htan0 : 0 < Real.tan (π / 4 + lat * π / 360) :=
    Real.tan_pos_of_pos_of_lt_pi_div_two harg0 (by nlinarith)
  have hlog : Real.log (Real.tan (π / 4 + lat * π / 360)) < 0 := Real.log_neg htan0 htan1
  have hmul : 180 / π * Real.log (Real.tan (π / 4 + lat * π / 360)) < 0 := by
    have h1 : 0 < 180 / π := by positivity
    exact mul_neg_of_pos_of_neg h1 hlog
  linarith

theorem maxNumber_pos : (0 : ℝ) < maxNumber := by
  rw [maxNumber]
  positivity

theorem GLOBE_RADIUS_lt_125 : GLOBE_RADIUS < 125 := by
  rw [GLOBE_RADIUS, EXTENT, div_div]
  rw [div_lt_iff (by positivity)]
  nlinarith [Real.pi_gt_three]

theorem camX_trPhase : camXOf trPhase = 1 / 8 := by
  show mercatorXfromLng (-135) = 1 / 8
  rw [mercatorXfromLng]
  norm_num

theorem camY_trPhase : camYOf trPhase = mercatorYfromLat (-10) := by
  show mercatorYfromLat (clamp (-10) (-MAX_MERCATOR_LATITUDE) MAX_MERCATOR_LATITUDE) = _
  congr 1
  rw [clamp, MAX_MERCATOR_LATITUDE]
  norm_num

theorem tile201_center :
    (tileCornersToBounds ⟨2, 0, 1⟩).getCenter = ⟨-135, latFromMercatorY (1 / 4) / 2⟩ := by
  rw [tile201_bounds_south_zero, LngLatBounds.getCenter]
  norm_num

theorem dxRaw_trPhase : dxRawOf trPhase ⟨2, 0, 1⟩ = 0 := by
  rw [dxRawOf, camX_trPhase, tile201_center]
  show (1 / 8 : ℝ) - mercatorXfromLng (-135) = 0
  rw [mercatorXfromLng]
  norm_num

theorem dx_trPhase : dxOf trPhase ⟨2, 0, 1⟩ = 0 := by
  simp only [dxOf, dxRaw_trPhase]
  norm_num

theorem dy_trPhase_pos : 0 < dyOf trPhase ⟨2, 0, 1⟩ := by
  rw [dyOf, camY_trPhase, tile201_center]
  have hA0 := latFromMercatorY_quarter_pos
  have hA90 := latFromMercatorY_quarter_lt_90
  have hclamp : clamp (latFromMercatorY (1 / 4) / 2)
      (-MAX_MERCATOR_LATITUDE) MAX_MERCATOR_LATITUDE = latFromMercatorY (1 / 4) / 2 := by
    rw [clamp, MAX_MERCATOR_LATITUDE]
    rw [max_eq_right (by norm_num; linarith), min_eq_right (by norm_num; linarith)]
  show mercatorYfromLat (-10) -
      mercatorYfromLat (clamp (latFromMercatorY (1 / 4) / 2)
        (-MAX_MERCATOR_LATITUDE) MAX_MERCATOR_LATITUDE) > 0
  rw [hclamp]
  have h1 : 1 / 2 < mercatorYfromLat (-10) :=
    half_lt_mercatorYfromLat (by norm_num) (by norm_num)
  have h2 : mercatorYfromLat (latFromMercatorY (1 / 4) / 2) < 1 / 2 :=
    mercatorYfromLat_lt_half (by linarith) (by linarith)
  linarith

theorem closestArcIdx_trPhase : closestArcIdxOf trPhase ⟨2, 0, 1⟩ = 0 := by
  rw [closestArcIdxOf, dx_trPhase]
  rw [if_neg (by simp [abs_nonneg]), if_pos dy_trPhase_pos.le]

theorem arcCenter_trPhase : arcCenterOf trPhase 1 ⟨2, 0, 1⟩ = ![0, 0, 0] := by
  simp only [arcCenterOf, dx_trPhase]
  rw [if_neg (by simp [abs_nonneg]), if_pos dy_trPhase_pos.le]
  rw [tile201_bounds_south_zero]
  show vadd ![trPhase.globeMatrix.m12 * (1 / trPhase.worldSize),
      trPhase.globeMatrix.m13 * (1 / trPhase.worldSize),
      trPhase.globeMatrix.m14 * (1 / trPhase.worldSize)]
    (vscale (-Real.sin (degToRad (0 : ℝ)) * GLOBE_RADIUS) _) = ![0, 0, 0]
  rw [degToRad_zero, Real.sin_zero]
  funext i
  fin_cases i <;>
    simp [vadd, vscale, show trPhase.globeMatrix = ⟨1, 0, 0, 0, 0, 1, 0, 0, 0, 0, 1, 0, 0, 0, 0, 1⟩ from rfl]

theorem transformMat4_id_map (tr : Transform) (h1 : tr.worldSize = 1)
    (hm : tr.globeMatrix = ⟨1, 0, 0, 0, 0, 1, 0, 0, 0, 0, 1, 0, 0, 0, 0, 1⟩)
    (tileId : TileID) :
    worldCorners tr 1 tileId = boundsToECEF (tileCornersToBounds tileId) := by
  rw [worldCorners]
  rw [h1, hm]
  have hpt : ∀ c : Vec3,
      vscale (1 : ℝ) (transformMat4 c ⟨1, 0, 0, 0, 0, 1, 0, 0, 0, 0, 1, 0, 0, 0, 0, 1⟩) = c := by
    intro c
    rw [transformMat4_id]
    funext i
    simp [vscale]
  simp [hpt]

theorem boundsToECEF_tile201 :
    boundsToECEF (tileCornersToBounds ⟨2, 0, 1⟩) =
      [![0, 0, -GLOBE_RADIUS], ![-GLOBE_RADIUS, 0, 0],
       ![-(Real.cos (degToRad (latFromMercatorY (1 / 4))) * GLOBE_RADIUS),
         -(Real.sin (degToRad (latFromMercatorY (1 / 4))) * GLOBE_RADIUS), 0],
       ![0, -(Real.sin (degToRad (latFromMercatorY (1 / 4))) * GLOBE_RADIUS),
         -(Real.cos (degToRad (latFromMercatorY (1 / 4))) * GLOBE_RADIUS)]] := by
  rw [tile201_bounds_south_zero]
  simp only [boundsToECEF, LngLatBounds.getNorth, LngLatBounds.getSouth,
    LngLatBounds.getWest, LngLatBounds.getEast]
  congr 1
  · funext i
    fin_cases i <;> simp [csLatLngToECEF, degToRad_zero, degToRad_neg180]
  congr 1
  · funext i
    fin_cases i <;> simp [csLatLngToECEF, degToRad_zero, degToRad_neg90]
  congr 1
  · funext i
    fin_cases i <;> simp [csLatLngToECEF, degToRad_neg90]
  congr 1
  funext i
  fin_cases i <;> simp [csLatLngToECEF, degToRad_neg180]

theorem worldCorners_trPhase :
    worldCorners trPhase 1 ⟨2, 0, 1⟩ =
      [![0, 0, -GLOBE_RADIUS], ![-GLOBE_RADIUS, 0, 0],
       ![-(Real.cos (degToRad (latFromMercatorY (1 / 4))) * GLOBE_RADIUS),
         -(Real.sin (degToRad (latFromMercatorY (1 / 4))) * GLOBE_RADIUS), 0],
       ![0, -(Real.sin (degToRad (latFromMercatorY (1 / 4))) * GLOBE_RADIUS),
         -(Real.cos (degToRad (latFromMercatorY (1 / 4))) * GLOBE_RADIUS)]] := by
  rw [transformMat4_id_map trPhase rfl rfl, boundsToECEF_tile201]

theorem closestArc_trPhase :
    closestArcOf trPhase 1 ⟨2, 0, 1⟩ =
      Arc.make ![0, 0, -GLOBE_RADIUS] ![-GLOBE_RADIUS, 0, 0] ![0, 0, 0] := by
  rw [closestArcOf, closestArcIdx_trPhase, worldCorners_trPhase, arcCenter_trPhase]
  norm_num [List.getD]

theorem closestArc_trPhase_angle :
    (closestArcOf trPhase 1 ⟨2, 0, 1⟩).angle = π / 2 := by
  have hR := GLOBE_RADIUS_pos
  rw [closestArc_trPhase]
  refine arc_make_perp_angle ?_ ?_ ?_
  · norm_num [vdot]
    nlinarith
  · norm_num [vdot]
    nlinarith
  · norm_num [vdot]

theorem localExtremum_adim_zero_right_angle (arc : Arc) (dim : Fin 3)
    (hang : arc.angle = π / 2) (ha : arc.a dim = 0) :
    localExtremum arc dim = some (arc.b dim + arc.center dim) := by
  have ht : tParam arc dim = 1 := by
    rw [tParam, if_pos ha, hang]
    have hpi : π ≠ 0 := Real.pi_ne_zero
    field_simp
    norm_num
  rw [localExtremum, if_neg (by rw [hang]; positivity)]
  simp only [ht]
  rw [if_neg (by norm_num)]
  congr 1
  rw [ha, hang]
  have hc : clamp (1 : ℝ) 0 1 = 1 := by
    rw [clamp]
    norm_num
  rw [hc, slerp]
  norm_num [Real.sin_pi_div_two]

theorem localExtremum_trPhase_dim2 :
    localExtremum (closestArcOf trPhase 1 ⟨2, 0, 1⟩) 2 = some (-GLOBE_RADIUS) := by
  have hR := GLOBE_RADIUS_pos
  have hang := closestArc_trPhase_angle
  have ha : (closestArcOf trPhase 1 ⟨2, 0, 1⟩).a 2 = -GLOBE_RADIUS := by
    rw [closestArc_trPhase, arc_make_a, vsub_zero3]
    norm_num
  have hb : (closestArcOf trPhase 1 ⟨2, 0, 1⟩).b 2 = 0 := by
    rw [closestArc_trPhase, arc_make_b, vsub_zero3]
    norm_num
  have hcen : (closestArcOf trPhase 1 ⟨2, 0, 1⟩).center 2 = 0 := by
    rw [closestArc_trPhase, arc_make_center]
    norm_num
  have ht : tParam (closestArcOf trPhase 1 ⟨2, 0, 1⟩) 2 = 0 := by
    rw [tParam, if_neg (by rw [ha]; intro h; nlinarith), ha, hb, hang]
    rw [Real.sin_pi_div_two, Real.tan_pi_div_two]
    norm_num
  rw [localExtremum, if_neg (by rw [hang]; positivity)]
  simp only [ht]
  rw [if_neg (by norm_num)]
  rw [ha, hb, hcen, hang]
  have hc : clamp (0 : ℝ) 0 1 = 0 := by
    rw [clamp]
    norm_num
  rw [hc, slerp]
  norm_num [Real.sin_pi_div_two]

theorem arcBoundsRaw_trPhase :
    arcBoundsRawOf trPhase 1 ⟨2, 0, 1⟩ = ![-GLOBE_RADIUS, 0, -GLOBE_RADIUS] := by
  have hR := GLOBE_RADIUS_pos
  have hang := closestArc_trPhase_angle
  have ha0 : (closestArcOf trPhase 1 ⟨2, 0, 1⟩).a 0 = 0 := by
    rw [closestArc_trPhase, arc_make_a, vsub_zero3]
    norm_num
  have ha1 : (closestArcOf trPhase 1 ⟨2, 0, 1⟩).a 1 = 0 := by
    rw [closestArc_trPhase, arc_make_a, vsub_zero3]
    norm_num
  have hd0 := localExtremum_adim_zero_right_angle _ 0 hang ha0
  have hd1 := localExtremum_adim_zero_right_angle _ 1 hang ha1
  have hb0 : (closestArcOf trPhase 1 ⟨2, 0, 1⟩).b 0 +
      (closestArcOf trPhase 1 ⟨2, 0, 1⟩).center 0 = -GLOBE_RADIUS := by
    rw [closestArc_trPhase, arc_make_b, arc_make_center, vsub_zero3]
    norm_num
  have hb1 : (closestArcOf trPhase 1 ⟨2, 0, 1⟩).b 1 +
      (closestArcOf trPhase 1 ⟨2, 0, 1⟩).center 1 = 0 := by
    rw [closestArc_trPhase, arc_make_b, arc_make_center, vsub_zero3]
    norm_num
  rw [hb0] at hd0
  rw [hb1] at hd1
  rw [arcBoundsRawOf]
  rw [closestArcIdx_trPhase, worldCorners_trPhase]
  rw [hd0, hd1, localExtremum_trPhase_dim2]
  funext i
  fin_cases i <;> simp [jsOrFallback, List.getD]

theorem mercatorCornersOf_trPhase :
    mercatorCornersOf trPhase 1 ⟨2, 0, 1⟩ =
      [![-124875, 500 - 999000 * mercatorYfromLat (-10), 0],
       ![-124625, 500 - 999000 * mercatorYfromLat (-10), 0],
       ![-124875, 250 - 999000 * mercatorYfromLat (-10), 0],
       ![-124625, 250 - 999000 * mercatorYfromLat (-10), 0]] := by
  rw [mercatorCornersOf, camX_trPhase, camY_trPhase,
    show trPhase.pixelsPerMercatorPixel = 1000 from rfl]
  simp only [mercatorTileCornersInCameraSpace]
  norm_num
  refine ⟨?_, ?_, ?_, ?_⟩ <;>
    funext i <;>
    fin_cases i <;>
    norm_num <;>
    ring

theorem mercatorExtremum_trPhase :
    mercatorExtremumOf trPhase 1 ⟨2, 0, 1⟩ =
      ![-124750, 500 - 999000 * mercatorYfromLat (-10), 0] := by
  rw [mercatorExtremumOf, closestArcIdx_trPhase, mercatorCornersOf_trPhase]
  norm_num [List.getD]
  funext i
  fin_cases i <;> simp [interpolateVec, interpolateNum] <;> ring

theorem arcBounds_trPhase :
    arcBoundsOf trPhase 1 ⟨2, 0, 1⟩ =
      ![-(GLOBE_RADIUS / 2) - 62375,
        (500 - 999000 * mercatorYfromLat (-10)) / 2,
        -(GLOBE_RADIUS / 2)] := by
  rw [arcBoundsOf]
  rw [show trPhase.zoom = 11 / 2 from rfl, globeToMercatorTransition_half]
  rw [if_pos (by norm_num)]
  rw [arcBoundsRaw_trPhase, mercatorExtremum_trPhase]
  funext i
  fin_cases i <;> simp [interpolateVec, interpolateNum] <;> ring

theorem aabb_trPhase_min0 :
    (aabbForTileOnGlobe trPhase 1 ⟨2, 0, 1⟩).min 0 = -(GLOBE_RADIUS / 2) - 62375 := by
  have hR := GLOBE_RADIUS_pos
  have hnc : ¬ (tileCornersToBounds ⟨2, 0, 1⟩).contains trPhase.center := by
    intro h
    rw [tile201_bounds_south_zero, LngLatBounds.contains] at h
    obtain ⟨h1, -⟩ := h
    have h2 : (0 : ℝ) ≤ -10 := h1
    norm_num at h2
  simp only [aabbForTileOnGlobe]
  rw [if_neg (by decide), if_neg hnc]
  rw [aabb_mk_min, arcBounds_trPhase]
  simp only [vmin]
  rw [Function.update_noteq (by decide)]
  rw [worldCorners_trPhase]
  simp only [List.foldl_cons, List.foldl_nil, vmin]
  norm_num
  have hK := Real.cos_le_one (degToRad (latFromMercatorY (1 / 4)))
  have hmx := maxNumber_pos
  have h125 := GLOBE_RADIUS_lt_125
  refine ⟨⟨⟨by linarith, by linarith⟩, by linarith⟩, by nlinarith⟩

theorem interpolatedCorner0_trPhase :
    ((interpolatedCorners trPhase 1 ⟨2, 0, 1⟩).getD 0 ![0, 0, 0]) 0 = -124875 / 2 := by
  rw [interpolatedCorners]
  rw [worldCorners_trPhase, mercatorCornersOf_trPhase]
  rw [show trPhase.zoom = 11 / 2 from rfl, globeToMercatorTransition_half]
  simp only [List.zipWith]
  norm_num [List.getD]
  simp [interpolateVec, interpolateNum]
  norm_num

/-- C1: the failing input for the transition branch.  The transition
factor at zoom five and a half lies strictly inside the band, yet the
returned box does not contain the first interpolated corner: the source
computes the interpolated corners but never folds them into the box, the
corner fold having already happened on the un-interpolated world-space
corners. -/
theorem aabbForTileOnGlobe_transition_misses_interpolated_corner :
    0 < globeToMercatorTransition trPhase.zoom ∧
    globeToMercatorTransition trPhase.zoom < 1 ∧
    ¬ (aabbForTileOnGlobe trPhase 1 ⟨2, 0, 1⟩).containsPoint
      ((interpolatedCorners trPhase 1 ⟨2, 0, 1⟩).getD 0 ![0, 0, 0]) := by
  rw [show trPhase.zoom = 11 / 2 from rfl, globeToMercatorTransition_half]
  refine ⟨by norm_num, by norm_num, ?_⟩
  intro h
  have h0 := (h 0).1
  rw [aabb_trPhase_min0, interpolatedCorner0_trPhase] at h0
  have h125 := GLOBE_RADIUS_lt_125
  linarith
